import Mathlib

/-!
Shallow embedding of the girlpound-bot core (src/src/discord.rs and
src/src/discord/commands/mods.rs) in Lean 4, with theorems settling the
specification claims about it.

Modelling conventions:
* `chrono::DateTime<Utc>` is modelled as `Int`, a timestamp in milliseconds;
  `chrono::Duration` is likewise `Int` in milliseconds.
* `DateTime::<Utc>::MIN_UTC` is the least representable timestamp; it is
  modelled by the constant `MIN_UTC` (its `timestamp_millis()` value).
* `SocketAddr`, `serenity::UserId`, `serenity::ChannelId`, `serenity::MessageId`
  are opaque identifiers, modelled as `Nat`.
* The `HashMap<SocketAddr, DateTime<Utc>>` behind the seeder cooldown is
  modelled as a total function `Nat → Option Int` (`none` = key absent).
* Rust `Result<(), Duration>` is modelled as `Except Int Unit`
  (`Except.error d` = `Err(d)`).
-/

/-- Duration of one hour in milliseconds. -/
def HOUR : Int := 60 * 60 * 1000

/-- Duration of one minute in milliseconds. -/
def MINUTE : Int := 60 * 1000

/-- The chrono constant `DateTime::<Utc>::MIN_UTC`, as a millisecond timestamp:
the earliest representable instant (year -262144). -/
def MIN_UTC : Int := -8334632851200000

/-- The constant `SEED_COOLDOWN` of `PoiseData::can_seed`: 4 hours in milliseconds
(`Duration::milliseconds(4 * 60 * 60 * 1000)`). -/
def SEED_COOLDOWN : Int := 4 * 60 * 60 * 1000

/-- The seeder-cooldown map `HashMap<SocketAddr, DateTime<Utc>>`. -/
def SeederMap := Nat → Option Int

/-- Model of `PoiseData::can_seed` (src/src/discord.rs:49-65).  The Rust code first
does `map.entry(server_addr).or_insert(DateTime::<Utc>::MIN_UTC)`, so an
absent entry is materialised as `MIN_UTC`; the returned pair is
(map after the `or_insert`, result).  It succeeds iff
`last_used + SEED_COOLDOWN < now` and otherwise returns
`Err(allowed_at - now)`. -/
def canSeed (map : SeederMap) (server_addr : Nat) (now : Int) :
    SeederMap × Except Int Unit :=
  let last_used := (map server_addr).getD MIN_UTC
  let map' : SeederMap :=
    fun a => if a = server_addr then some last_used else map a
  let allowed_at := last_used + SEED_COOLDOWN
  if allowed_at < now then (map', Except.ok ()) else (map', Except.error (allowed_at - now))

/-- Model of `PoiseData::reset_seed_cooldown` (src/src/discord.rs:67-73):
`or_insert` followed by `*last_used = now` nets to inserting `now`. -/
def reset_seed_cooldown (map : SeederMap) (server_addr : Nat) (now : Int) :
    SeederMap :=
  fun a => if a = server_addr then some now else map a

/-- The result of `can_seed` in closed form. -/
theorem canSeed_snd (map : SeederMap) (s : Nat) (now : Int) :
    (canSeed map s now).2 =
      if (map s).getD MIN_UTC + SEED_COOLDOWN < now then Except.ok ()
      else Except.error ((map s).getD MIN_UTC + SEED_COOLDOWN - now) := by
  unfold canSeed
  by_cases h : (map s).getD MIN_UTC + SEED_COOLDOWN < now <;> simp [h]

/-- The map left behind by `can_seed` in closed form: the queried entry is
materialised (`or_insert`), everything else is untouched. -/
theorem canSeed_fst (map : SeederMap) (s : Nat) (now : Int) :
    (canSeed map s now).1 =
      fun a => if a = s then some ((map s).getD MIN_UTC) else map a := by
  unfold canSeed
  by_cases h : (map s).getD MIN_UTC + SEED_COOLDOWN < now <;> simp [h]

/-- C1 counterexample: with `last_triggered = 0` and `now` exactly equal to
`last_triggered + SEED_COOLDOWN`, the claim demands `Ok(())` (since
`now >= allowed_at`), but `can_seed` returns `Err(0)`. -/
theorem C1_boundary_counterexample :
    (SEED_COOLDOWN : Int) ≥ 0 + SEED_COOLDOWN ∧
    (canSeed (fun _ => some 0) 0 SEED_COOLDOWN).2 = Except.error 0 ∧
    (canSeed (fun _ => some 0) 0 SEED_COOLDOWN).2 ≠ Except.ok () := by
  refine ⟨le_refl _, ?_, ?_⟩ <;> simp [canSeed, SEED_COOLDOWN]

/-- C1 amended: `can_seed(S)` returns `Ok(())` exactly when
`now` is STRICTLY greater than `last_triggered(S) + 4 hours` (an absent
entry read as `MIN_UTC`); in every other case it returns `Err` carrying
exactly `(last_triggered(S) + 4 hours) - now`. -/
theorem C1_can_seed_characterisation (map : SeederMap) (s : Nat) (now : Int) :
    ((canSeed map s now).2 = Except.ok () ↔
      (map s).getD MIN_UTC + SEED_COOLDOWN < now) ∧
    ((canSeed map s now).2 = Except.ok () ∨
      (canSeed map s now).2 = Except.error ((map s).getD MIN_UTC + SEED_COOLDOWN - now)) := by
  constructor
  · unfold canSeed
    by_cases h : (map s).getD MIN_UTC + SEED_COOLDOWN < now <;> simp [h]
  · unfold canSeed
    by_cases h : (map s).getD MIN_UTC + SEED_COOLDOWN < now <;> simp [h]

/-- C2 counterexample: a successful `can_seed` does NOT consume or reset the
cooldown.  With an empty map, `can_seed(0)` at `t0 = 0` succeeds, and
`can_seed(0)` on the resulting state at `t0 + 1 hour` succeeds again,
whereas the claim requires it to fail with ~3 hours remaining. -/
theorem C2_no_reset_counterexample :
    (canSeed (fun _ => none) 0 0).2 = Except.ok () ∧
    (canSeed (canSeed (fun _ => none) 0 0).1 0 HOUR).2 = Except.ok () := by
  constructor <;> simp [canSeed, HOUR, SEED_COOLDOWN, MIN_UTC]

/-- C2 amended: it is `reset_seed_cooldown`, not `can_seed` itself, that
consumes the cooldown.  If `can_seed(S)` succeeds at `t0` and
`reset_seed_cooldown(S)` is then called at `t0`, then `can_seed(S)` at
`t0 + 1 hour` fails with exactly 3 hours remaining, and `can_seed(S)` at
`t0 + 4 hours 1 minute` succeeds again. -/
theorem C2_reset_then_wait (map : SeederMap) (s : Nat) (t0 : Int)
    (h : (canSeed map s t0).2 = Except.ok ()) :
    (canSeed (reset_seed_cooldown (canSeed map s t0).1 s t0) s (t0 + HOUR)).2 =
      Except.error (3 * HOUR) ∧
    (canSeed (reset_seed_cooldown (canSeed map s t0).1 s t0) s
      (t0 + 4 * HOUR + MINUTE)).2 = Except.ok () := by
  clear h
  have hm : reset_seed_cooldown (canSeed map s t0).1 s t0 s = some t0 := by
    simp [reset_seed_cooldown]
  constructor
  · rw [canSeed_snd, hm]
    have hlt : ¬ ((some t0).getD MIN_UTC + SEED_COOLDOWN < t0 + HOUR) := by
      simp only [Option.getD_some, SEED_COOLDOWN, HOUR]; omega
    rw [if_neg hlt]
    simp only [Option.getD_some, Except.error.injEq, SEED_COOLDOWN, HOUR]
    omega
  · rw [canSeed_snd, hm]
    have hlt : (some t0).getD MIN_UTC + SEED_COOLDOWN < t0 + 4 * HOUR + MINUTE := by
      simp only [Option.getD_some, SEED_COOLDOWN, HOUR, MINUTE]; omega
    rw [if_pos hlt]

/-- Witness for `C2_reset_then_wait` at the empty map, server 0, `t0 = 0`. -/
theorem C2_reset_then_wait_witness :
    (canSeed (reset_seed_cooldown (canSeed (fun _ => none) 0 0).1 0 0) 0 (0 + HOUR)).2 =
      Except.error (3 * HOUR) ∧
    (canSeed (reset_seed_cooldown (canSeed (fun _ => none) 0 0).1 0 0) 0
      (0 + 4 * HOUR + MINUTE)).2 = Except.ok () :=
  C2_reset_then_wait (fun _ => none) 0 0
    (by simp [canSeed, SEED_COOLDOWN, MIN_UTC])

/-- C7: immediately after `reset_seed_cooldown(S)` at time `t`, `can_seed(S)`
at the same `t` returns `Err` with the full 4-hour window remaining, and at
every time strictly after `t + 4 hours` it returns `Ok(())`. -/
theorem C7_reset_gives_full_window (map : SeederMap) (s : Nat) (t : Int) :
    (canSeed (reset_seed_cooldown map s t) s t).2 = Except.error SEED_COOLDOWN ∧
    ∀ t2 : Int, t + SEED_COOLDOWN < t2 →
      (canSeed (reset_seed_cooldown map s t) s t2).2 = Except.ok () := by
  have hm : reset_seed_cooldown map s t s = some t := by
    simp [reset_seed_cooldown]
  constructor
  · rw [canSeed_snd, hm]
    have hlt : ¬ ((some t).getD MIN_UTC + SEED_COOLDOWN < t) := by
      simp only [Option.getD_some, SEED_COOLDOWN]; omega
    rw [if_neg hlt]
    simp only [Option.getD_some, Except.error.injEq]
    ring
  · intro t2 ht
    rw [canSeed_snd, hm]
    have hlt : (some t).getD MIN_UTC + SEED_COOLDOWN < t2 := by
      simpa using ht
    rw [if_pos hlt]

/-- Witness for `C7_reset_gives_full_window` at the empty map, server 0,
`t = 0`, second query time `SEED_COOLDOWN + 1`. -/
theorem C7_reset_gives_full_window_witness :
    (canSeed (reset_seed_cooldown (fun _ => none) 0 0) 0 0).2 =
      Except.error SEED_COOLDOWN ∧
    (canSeed (reset_seed_cooldown (fun _ => none) 0 0) 0 (SEED_COOLDOWN + 1)).2 =
      Except.ok () :=
  ⟨(C7_reset_gives_full_window (fun _ => none) 0 0).1,
   (C7_reset_gives_full_window (fun _ => none) 0 0).2 (SEED_COOLDOWN + 1)
     (by simp)⟩

/-- C8: `can_seed` never changes the outcome of any later call — the map it
leaves behind is observationally equivalent to the one it was given (the
materialised `MIN_UTC` entry behaves like absence), entries of other servers
are untouched by both operations, and the entry of the server itself after
`can_seed` is exactly the materialised previous value (so only
`reset_seed_cooldown` writes a new timestamp). -/
theorem C8_can_seed_is_read_only (map : SeederMap) (s : Nat) (now : Int) :
    (∀ a t2, (canSeed (canSeed map s now).1 a t2).2 = (canSeed map a t2).2) ∧
    (∀ a, a ≠ s → (canSeed map s now).1 a = map a) ∧
    ((canSeed map s now).1 s = some ((map s).getD MIN_UTC)) ∧
    (∀ a, a ≠ s → reset_seed_cooldown map s now a = map a) := by
  refine ⟨?_, ?_, ?_, ?_⟩
  · intro a t2
    rw [canSeed_snd, canSeed_snd]
    have hval : ((canSeed map s now).1 a).getD MIN_UTC = (map a).getD MIN_UTC := by
      rw [canSeed_fst]
      by_cases ha : a = s
      · subst ha; simp
      · simp [ha]
    rw [hval]
  · intro a ha
    rw [canSeed_fst]
    simp [ha]
  · rw [canSeed_fst]
    simp
  · intro a ha
    simp [reset_seed_cooldown, ha]

/-- Witness for `C8_can_seed_is_read_only` at the empty map, server 0,
`now = 0`, other server 1, later query at server 0 and time 1. -/
theorem C8_can_seed_is_read_only_witness :
    (canSeed (canSeed (fun _ => none) 0 0).1 0 1).2 = (canSeed (fun _ => none) 0 1).2 ∧
    (canSeed (fun _ => none) 0 0).1 1 = (fun _ => (none : Option Int)) 1 ∧
    reset_seed_cooldown (fun _ => none) 0 0 1 = (fun _ => (none : Option Int)) 1 :=
  ⟨(C8_can_seed_is_read_only (fun _ => none) 0 0).1 0 1,
   (C8_can_seed_is_read_only (fun _ => none) 0 0).2.1 1 (by decide),
   (C8_can_seed_is_read_only (fun _ => none) 0 0).2.2.2 1 (by decide)⟩

/-- Rust `struct Cooldown` (src/src/discord.rs:77-81): a nag request from the
event handler to the cooldown actor. -/
structure Cooldown where
  user : Nat
  channel : Nat
  delete_at : Int
deriving DecidableEq

/-- The fields of a sent `serenity::Message` the actor uses
(`msg.id`, `msg.channel_id`). -/
structure Message where
  id : Nat
  channel_id : Nat
deriving DecidableEq

/-- Outcome of `cooldown_receiver.try_recv()` in the actor loop
(src/src/discord.rs:89): `Err(Disconnected)`, `Err(Empty)`, or `Ok(c)`. -/
inductive RecvResult where
  | disconnected
  | empty
  | ok (c : Cooldown)
deriving DecidableEq

/-- The duplicate test of the actor Ok-branch guard
(`queue.iter().any(|(cd, _)| cd.user == user && cd.channel == channel)`,
src/src/discord.rs:99-101). -/
def pairPresent (queue : List (Cooldown × Message)) (user channel : Nat) : Bool :=
  queue.any fun p => p.1.user == user && p.1.channel == channel

/-- The receive-handling phase of one actor-loop iteration
(src/src/discord.rs:89-117).  `sendOutcome` models the external
`ctx.http.send_message` call: `some msg` for `Ok(msg)` (the entry is then
pushed), `none` for `Err` (nothing is pushed).  Returns `none` when the loop
`break`s (channel disconnected), otherwise `some (new queue, whether a
notice send was attempted)`. -/
def handleRequest (queue : List (Cooldown × Message)) (r : RecvResult)
    (sendOutcome : Option Message) : Option (List (Cooldown × Message) × Bool) :=
  match r with
  | RecvResult.disconnected => none
  | RecvResult.empty => some (queue, false)
  | RecvResult.ok c =>
      if pairPresent queue c.user c.channel then some (queue, false)
      else
        match sendOutcome with
        | some msg => some (queue ++ [(c, msg)], true)
        | none => some (queue, true)

/-- The sweep phase of one actor-loop iteration (`queue.retain`,
src/src/discord.rs:118-128): an entry is deleted iff
`now - delete_at > Duration::zero()`, i.e. strictly after its expiry.
Returns (entries kept, entries whose message delete was issued).  The
per-entry `Utc::now()` reads of the source are modelled by one sweep
time `now`. -/
def sweep (queue : List (Cooldown × Message)) (now : Int) :
    List (Cooldown × Message) × List (Cooldown × Message) :=
  (queue.filter fun p => ! decide (0 < now - p.1.delete_at),
   queue.filter fun p => decide (0 < now - p.1.delete_at))

/-- The arguments of the `http.delete_message(cid, mid)` calls a sweep
spawns (src/src/discord.rs:123-125). -/
def deleteCalls (deleted : List (Cooldown × Message)) : List (Nat × Nat) :=
  deleted.map fun p => (p.2.channel_id, p.2.id)

/-- One full iteration of the actor loop (src/src/discord.rs:88-130):
receive handling, then the sweep.  `none` means the loop `break`s. -/
def loopIter (queue : List (Cooldown × Message)) (r : RecvResult)
    (sendOutcome : Option Message) (now : Int) :
    Option (List (Cooldown × Message) × List (Cooldown × Message)) :=
  match handleRequest queue r sendOutcome with
  | none => none
  | some (q1, _) => some (sweep q1 now)

/-- A sequence of sweeps at the given times, accumulating all entries whose
delete was issued (the request channel staying quiet in between). -/
def sweepTrace : List (Cooldown × Message) → List Int →
    List (Cooldown × Message) × List (Cooldown × Message)
  | queue, [] => (queue, [])
  | queue, t :: ts =>
      let s1 := sweep queue t
      let rest := sweepTrace s1.1 ts
      (rest.1, s1.2 ++ rest.2)

/-- No two queue entries share the same (user, channel) pair. -/
def NoDupPairs (queue : List (Cooldown × Message)) : Prop :=
  queue.Pairwise fun p q => ¬ (p.1.user = q.1.user ∧ p.1.channel = q.1.channel)

/-- C5: one actor-loop iteration breaks out of the loop exactly when
`try_recv` reported `Disconnected`; on a received request or an
empty-but-open channel the iteration completes and the loop continues. -/
theorem C5_loop_breaks_iff_disconnected (queue : List (Cooldown × Message))
    (r : RecvResult) (sendOutcome : Option Message) (now : Int) :
    loopIter queue r sendOutcome now = none ↔ r = RecvResult.disconnected := by
  cases r with
  | disconnected => simp [loopIter, handleRequest]
  | empty => simp [loopIter, handleRequest]
  | ok c =>
      by_cases hpp : pairPresent queue c.user c.channel <;>
        cases sendOutcome <;> simp [loopIter, handleRequest, hpp]

/-- C9: when the notice send for a non-pending (user, channel) pair fails,
no entry is recorded (the queue is unchanged, though a send was attempted),
so a later request for the same pair is again not a duplicate and attempts
a fresh send, which on success records the entry. -/
theorem C9_failed_send_leaves_no_entry (queue : List (Cooldown × Message))
    (c : Cooldown) (msg : Message)
    (habs : pairPresent queue c.user c.channel = false) :
    handleRequest queue (RecvResult.ok c) none = some (queue, true) ∧
    handleRequest queue (RecvResult.ok c) (some msg) =
      some (queue ++ [(c, msg)], true) := by
  constructor <;> simp [handleRequest, habs]

/-- Witness for `C9_failed_send_leaves_no_entry` at the empty queue. -/
theorem C9_failed_send_leaves_no_entry_witness :
    handleRequest [] (RecvResult.ok ⟨1, 2, 10⟩) none = some ([], true) ∧
    handleRequest [] (RecvResult.ok ⟨1, 2, 10⟩) (some ⟨100, 2⟩) =
      some ([(⟨1, 2, 10⟩, ⟨100, 2⟩)], true) :=
  C9_failed_send_leaves_no_entry [] ⟨1, 2, 10⟩ ⟨100, 2⟩ (by decide)

/-- Receiving a request preserves the no-duplicate-pairs invariant. -/
theorem noDup_handleRequest (queue : List (Cooldown × Message)) (r : RecvResult)
    (sendOutcome : Option Message) (q1 : List (Cooldown × Message)) (b : Bool)
    (hinv : NoDupPairs queue)
    (h : handleRequest queue r sendOutcome = some (q1, b)) : NoDupPairs q1 := by
  cases r with
  | disconnected => simp [handleRequest] at h
  | empty =>
      simp only [handleRequest, Option.some.injEq, Prod.mk.injEq] at h
      exact h.1 ▸ hinv
  | ok c =>
      by_cases hpp : pairPresent queue c.user c.channel
      · simp only [handleRequest, hpp, if_pos, Option.some.injEq, Prod.mk.injEq] at h
        exact h.1 ▸ hinv
      · cases sendOutcome with
        | none =>
            simp only [handleRequest, hpp, if_false, Option.some.injEq, Prod.mk.injEq,
              Bool.false_eq_true] at h
            exact h.1 ▸ hinv
        | some msg =>
            simp only [handleRequest, hpp, if_false, Option.some.injEq, Prod.mk.injEq,
              Bool.false_eq_true] at h
            have hfresh : ∀ p ∈ queue,
                ¬ (p.1.user = c.user ∧ p.1.channel = c.channel) := by
              intro p hp hc
              have : pairPresent queue c.user c.channel = true := by
                simp only [pairPresent, List.any_eq_true]
                exact ⟨p, hp, by simp [hc.1, hc.2]⟩
              simp [this] at hpp
            have : NoDupPairs (queue ++ [(c, msg)]) := by
              unfold NoDupPairs
              rw [List.pairwise_append]
              refine ⟨hinv, List.pairwise_singleton _ _, ?_⟩
              intro p hp q hq
              simp only [List.mem_singleton] at hq
              subst hq
              exact hfresh p hp
            exact h.1 ▸ this

/-- The sweep preserves the no-duplicate-pairs invariant. -/
theorem noDup_sweep (queue : List (Cooldown × Message)) (now : Int)
    (hinv : NoDupPairs queue) : NoDupPairs (sweep queue now).1 :=
  List.Pairwise.sublist (List.filter_sublist _) hinv

/-- C3: the actor queue never holds two entries with the same
(user, channel) pair — every loop iteration preserves the invariant — and a
request whose pair is already queued attempts no send and leaves the queue
unchanged. -/
theorem C3_no_duplicate_pairs (queue : List (Cooldown × Message))
    (r : RecvResult) (sendOutcome : Option Message) (now : Int)
    (hinv : NoDupPairs queue) :
    (∀ out, loopIter queue r sendOutcome now = some out → NoDupPairs out.1) ∧
    (∀ c, r = RecvResult.ok c → pairPresent queue c.user c.channel = true →
      handleRequest queue r sendOutcome = some (queue, false)) := by
  constructor
  · intro out hout
    unfold loopIter at hout
    cases hreq : handleRequest queue r sendOutcome with
    | none => rw [hreq] at hout; simp at hout
    | some q1b =>
        rw [hreq] at hout
        simp only [Option.some.injEq] at hout
        have h1 : NoDupPairs q1b.1 := noDup_handleRequest queue r sendOutcome q1b.1 q1b.2 hinv hreq
        have := noDup_sweep q1b.1 now h1
        rw [← hout]
        exact this
  · intro c hr hpp
    subst hr
    simp [handleRequest, hpp]

/-- Witness for `C3_no_duplicate_pairs`: a singleton queue, a duplicate
request for its (user, channel) pair, a failed send, sweep time 0. -/
theorem C3_no_duplicate_pairs_witness :
    NoDupPairs [(⟨1, 2, 10⟩, ⟨100, 2⟩)] ∧
    NoDupPairs ([(⟨1, 2, 10⟩, ⟨100, 2⟩)] : List (Cooldown × Message)) ∧
    handleRequest [(⟨1, 2, 10⟩, ⟨100, 2⟩)] (RecvResult.ok ⟨1, 2, 99⟩) none =
      some ([(⟨1, 2, 10⟩, ⟨100, 2⟩)], false) := by
  have hinv : NoDupPairs [(⟨1, 2, 10⟩, ⟨100, 2⟩)] := List.pairwise_singleton _ _
  refine ⟨hinv, ?_, ?_⟩
  · have h := (C3_no_duplicate_pairs [(⟨1, 2, 10⟩, ⟨100, 2⟩)]
      (RecvResult.ok ⟨1, 2, 99⟩) none 0 hinv).1
        ((sweep [(⟨1, 2, 10⟩, ⟨100, 2⟩)] 0).1, (sweep [(⟨1, 2, 10⟩, ⟨100, 2⟩)] 0).2)
        (by rfl)
    simpa [sweep] using h
  · exact (C3_no_duplicate_pairs [(⟨1, 2, 10⟩, ⟨100, 2⟩)]
      (RecvResult.ok ⟨1, 2, 99⟩) none 0 hinv).2 ⟨1, 2, 99⟩ rfl (by decide)

/-- A sweep issues a delete for an entry iff the entry is queued and the
sweep time is strictly past its `delete_at`. -/
theorem sweep_deleted_mem (queue : List (Cooldown × Message)) (now : Int)
    (p : Cooldown × Message) :
    p ∈ (sweep queue now).2 ↔ p ∈ queue ∧ p.1.delete_at < now := by
  simp [sweep, List.mem_filter, Int.sub_pos]

/-- A sweep partitions the queue: every copy of an entry is either kept or
has its delete issued, never both, never neither. -/
theorem sweep_count_partition (queue : List (Cooldown × Message)) (now : Int)
    (p : Cooldown × Message) :
    (sweep queue now).1.count p + (sweep queue now).2.count p = queue.count p := by
  simp only [sweep]
  by_cases hd : (0 : Int) < now - p.1.delete_at
  · have h2 : (queue.filter fun q => decide (0 < now - q.1.delete_at)).count p =
        queue.count p := List.count_filter (by simp [hd])
    have h1 : (queue.filter fun q => ! decide (0 < now - q.1.delete_at)).count p = 0 := by
      rw [List.count_eq_zero]
      intro hm
      rw [List.mem_filter] at hm
      simp [hd] at hm
    omega
  · have h1 : (queue.filter fun q => ! decide (0 < now - q.1.delete_at)).count p =
        queue.count p := List.count_filter (by simp [hd])
    have h2 : (queue.filter fun q => decide (0 < now - q.1.delete_at)).count p = 0 := by
      rw [List.count_eq_zero]
      intro hm
      rw [List.mem_filter] at hm
      simp [hd] at hm
    omega

/-- Across any sequence of sweeps, the delete of an entry is issued at most as
often as it occurred in the starting queue. -/
theorem sweepTrace_count_le (ts : List Int) (p : Cooldown × Message) :
    ∀ queue, (sweepTrace queue ts).2.count p ≤ queue.count p := by
  induction ts with
  | nil => intro queue; simp [sweepTrace]
  | cons t ts ih =>
      intro queue
      simp only [sweepTrace, List.count_append]
      have h1 := sweep_count_partition queue t p
      have h2 := ih (sweep queue t).1
      omega

/-- No delete is issued across sweeps that all happen at or before the
`delete_at` of the entry. -/
theorem sweepTrace_count_zero (ts : List Int) (p : Cooldown × Message)
    (h : ∀ t ∈ ts, t ≤ p.1.delete_at) :
    ∀ queue, (sweepTrace queue ts).2.count p = 0 := by
  induction ts with
  | nil => intro queue; simp [sweepTrace]
  | cons t ts ih =>
      intro queue
      simp only [sweepTrace, List.count_append]
      have hnd : (sweep queue t).2.count p = 0 := by
        rw [List.count_eq_zero]
        intro hmem
        rw [sweep_deleted_mem] at hmem
        have := h t (List.mem_cons_self t ts)
        omega
      rw [hnd, ih (fun t2 ht2 => h t2 (List.mem_cons_of_mem t ht2)) (sweep queue t).1]

/-- Once some sweep in the sequence happens strictly after the `delete_at` of the entry, its delete is issued exactly as often as it occurred in the
starting queue (in particular, exactly once for a single occurrence). -/
theorem sweepTrace_count_full (ts : List Int) (p : Cooldown × Message)
    (h : ∃ t ∈ ts, p.1.delete_at < t) :
    ∀ queue, (sweepTrace queue ts).2.count p = queue.count p := by
  induction ts with
  | nil => simp at h
  | cons t ts ih =>
      intro queue
      simp only [sweepTrace, List.count_append]
      by_cases hd : p.1.delete_at < t
      · have hdel : (sweep queue t).2.count p = queue.count p := by
          simp only [sweep]
          exact List.count_filter (by simp [Int.sub_pos, hd])
        have hpart := sweep_count_partition queue t p
        have hle := sweepTrace_count_le ts p (sweep queue t).1
        omega
      · have hdel : (sweep queue t).2.count p = 0 := by
          rw [List.count_eq_zero]
          intro hm
          rw [sweep_deleted_mem] at hm
          exact hd hm.2
        have hpart := sweep_count_partition queue t p
        have hex : ∃ t2 ∈ ts, p.1.delete_at < t2 := by
          rcases h with ⟨t2, ht2, hlt⟩
          rcases List.mem_cons.1 ht2 with heq | hmem
          · exact absurd (heq ▸ hlt) hd
          · exact ⟨t2, hmem, hlt⟩
        have := ih hex (sweep queue t).1
        omega

/-- C4: for every entry in the actor queue, the delete of its recorded
message is issued only at a sweep strictly after its `delete_at` — never at
or before it — the entry leaves the queue at the very sweep that issues the
delete, the delete is issued at most once per queued copy over any sequence
of sweeps, and exactly once as soon as some sweep time passes the expiry. -/
theorem C4_delete_exactly_once (queue : List (Cooldown × Message))
    (ts : List Int) (p : Cooldown × Message) :
    (∀ now, p ∈ (sweep queue now).2 ↔ p ∈ queue ∧ p.1.delete_at < now) ∧
    (∀ now, (sweep queue now).1.count p + (sweep queue now).2.count p = queue.count p) ∧
    ((∀ t ∈ ts, t ≤ p.1.delete_at) → (sweepTrace queue ts).2.count p = 0) ∧
    ((sweepTrace queue ts).2.count p ≤ queue.count p) ∧
    ((∃ t ∈ ts, p.1.delete_at < t) → (sweepTrace queue ts).2.count p = queue.count p) :=
  ⟨fun now => sweep_deleted_mem queue now p,
   fun now => sweep_count_partition queue now p,
   fun h => sweepTrace_count_zero ts p h queue,
   sweepTrace_count_le ts p queue,
   fun h => sweepTrace_count_full ts p h queue⟩

/-- Witness for `C4_delete_exactly_once`: one nag expiring at time 10;
sweeps at times 5 (too early, nothing issued) and then 20 (delete issued,
exactly once). -/
theorem C4_delete_exactly_once_witness :
    ((⟨1, 2, 10⟩, ⟨100, 2⟩) ∈ (sweep [(⟨1, 2, 10⟩, ⟨100, 2⟩)] 20).2 ↔
      (⟨1, 2, 10⟩, ⟨100, 2⟩) ∈ [((⟨1, 2, 10⟩ : Cooldown), (⟨100, 2⟩ : Message))] ∧
        (10 : Int) < 20) ∧
    (sweepTrace [(⟨1, 2, 10⟩, ⟨100, 2⟩)] [5]).2.count (⟨1, 2, 10⟩, ⟨100, 2⟩) = 0 ∧
    (sweepTrace [(⟨1, 2, 10⟩, ⟨100, 2⟩)] [5, 20]).2.count (⟨1, 2, 10⟩, ⟨100, 2⟩) =
      [((⟨1, 2, 10⟩ : Cooldown), (⟨100, 2⟩ : Message))].count (⟨1, 2, 10⟩, ⟨100, 2⟩) :=
  ⟨(C4_delete_exactly_once [(⟨1, 2, 10⟩, ⟨100, 2⟩)] [5, 20] (⟨1, 2, 10⟩, ⟨100, 2⟩)).1 20,
   (C4_delete_exactly_once [(⟨1, 2, 10⟩, ⟨100, 2⟩)] [5] (⟨1, 2, 10⟩, ⟨100, 2⟩)).2.2.1
     (by decide),
   (C4_delete_exactly_once [(⟨1, 2, 10⟩, ⟨100, 2⟩)] [5, 20] (⟨1, 2, 10⟩, ⟨100, 2⟩)).2.2.2.2
     (by decide)⟩

/-- A side-effecting call issued by the media-cooldown branch of the event handler: a Discord message deletion, or a `Cooldown` request sent to the
actor. -/
inductive HandlerCall where
  | deleteMessage (channel_id msg_id : Nat)
  | sendCooldown (user channel : Nat) (delete_at : Int)
deriving DecidableEq

/-- The media-cooldown branch of `event_handler` for a guild message-created
event (src/src/discord.rs:167-181).  `media_cooldown.try_allow_one` lives in
`media_cooldown.rs`, which is not among the sources, so its outcome is taken
as the parameter `check` (`Except.error time_left` models `Err(time_left)`).
`new_message.delete(ctx).await?` propagates a failed delete (modelled by
`deleteOk`); the subsequent `let _ = cooldown_handler.send(..)` ignores its
own result and uses `delete_at = Utc::now() + time_left`.  Returns the
calls issued, in order, and the result of the handler. -/
def handleGuildMessage (author channel msg_id : Nat) (check : Except Int Unit)
    (now : Int) (deleteOk : Bool) : List HandlerCall × Except String Unit :=
  match check with
  | Except.error time_left =>
      if deleteOk then
        ([HandlerCall.deleteMessage channel msg_id,
          HandlerCall.sendCooldown author channel (now + time_left)], Except.ok ())
      else ([HandlerCall.deleteMessage channel msg_id], Except.error "delete failed")
  | Except.ok _ => ([], Except.ok ())

/-- C6: when `try_allow_one` denies (`Err(time_left)`), the handler deletes
the offending message and submits a cooldown request for (author, channel)
with `delete_at = now + time_left`, and the own result of the handler never
depends on the denial (the only error it can surface comes from the message
delete, identical whatever `time_left` is); when the check passes, it
issues no call at all and succeeds. -/
theorem C6_denial_handled_not_propagated (author channel msg_id : Nat)
    (now time_left : Int) :
    (handleGuildMessage author channel msg_id (Except.error time_left) now true =
      ([HandlerCall.deleteMessage channel msg_id,
        HandlerCall.sendCooldown author channel (now + time_left)], Except.ok ())) ∧
    (∀ dOk, (handleGuildMessage author channel msg_id (Except.error time_left) now dOk).2 =
      (handleGuildMessage author channel msg_id (Except.error 0) now dOk).2) ∧
    (∀ u dOk, handleGuildMessage author channel msg_id (Except.ok u) now dOk =
      ([], Except.ok ())) := by
  refine ⟨rfl, ?_, ?_⟩
  · intro dOk
    cases dOk <;> rfl
  · intro u dOk
    rfl

/-- Command string built by `tf2mute` via `reason.unwrap_or(..)`,
`minutes.unwrap_or(0)` and the `format!` (src/src/discord/commands/mods.rs:90-95):
`sm_mute "<username>" <minutes> <reason>`. -/
def tf2mute_cmd (username : String) (minutes : Option Nat)
    (reason : Option String) : String :=
  let reason := reason.getD "1984"
  let minutes := minutes.getD 0
  "sm_mute \"" ++ username ++ "\" " ++ toString minutes ++ " " ++ reason

/-- Command string built by `tf2gag` via `reason.unwrap_or(..)`,
`minutes.unwrap_or(0)` and the `format!` (src/src/discord/commands/mods.rs:134-139):
`sm_gag "<username>" <minutes> <reason>`. -/
def tf2gag_cmd (username : String) (minutes : Option Nat)
    (reason : Option String) : String :=
  let reason := reason.getD "1984"
  let minutes := minutes.getD 0
  "sm_gag \"" ++ username ++ "\" " ++ toString minutes ++ " " ++ reason

/-- C10: `tf2mute` and `tf2gag` build exactly
`sm_mute "<username>" <minutes> <reason>` (resp. `sm_gag ...`), with the
username always double-quoted, an omitted minutes parameter sent as `0`
and an omitted reason as `1984`. -/
theorem C10_mute_gag_command_format (username : String) (minutes : Option Nat)
    (reason : Option String) :
    (tf2mute_cmd username minutes reason =
      "sm_mute \"" ++ username ++ "\" " ++ toString (minutes.getD 0) ++ " " ++
        reason.getD "1984") ∧
    (tf2gag_cmd username minutes reason =
      "sm_gag \"" ++ username ++ "\" " ++ toString (minutes.getD 0) ++ " " ++
        reason.getD "1984") ∧
    (tf2mute_cmd username none none = "sm_mute \"" ++ username ++ "\" 0 1984") ∧
    (tf2gag_cmd username none none = "sm_gag \"" ++ username ++ "\" 0 1984") := by
  refine ⟨rfl, rfl, ?_, ?_⟩
  · have h : ("\" " ++ (toString (0 : Nat) ++ (" " ++ "1984")) : String) = "\" 0 1984" := rfl
    simp only [tf2mute_cmd, Option.getD_none, String.append_assoc, h]
  · have h : ("\" " ++ (toString (0 : Nat) ++ (" " ++ "1984")) : String) = "\" 0 1984" := rfl
    simp only [tf2gag_cmd, Option.getD_none, String.append_assoc, h]
